import Mathlib

/-!
Shallow embedding of the `kraken-assignment` transaction ledger.

`src/account.rs` keeps every monetary quantity as an exact decimal
(`BigDecimal` in the account, `ConstScaleFpdec<i64, 4>` at the input
boundary).  All ledger arithmetic is addition and subtraction, so amounts
are embedded as `Int`, counting units of `10^-4` (the fixed scale of the
input parser); e.g. the decimal `100.0` is the integer `1000000`.

`HashMap<u64, BigDecimal>` is embedded as an association list without
duplicate keys: `insert` replaces any earlier binding, `remove` deletes
the binding when present and leaves the list untouched otherwise, exactly
the observable behaviour of the Rust map.
-/

set_option autoImplicit false

deriving instance DecidableEq for Except

namespace KrakenLedger

/-- Exact fixed-point money value, counted in `10^-4` units. -/
abbrev Amount := Int

/-- `100.0` in the ledger's fixed-point representation (scale 4). -/
def dec (units : Int) : Amount := units * 10000

/-- Association-list embedding of `HashMap<u64, BigDecimal>`. -/
abbrev AmtMap := List (Nat × Amount)

/-- `HashMap::get`: the value bound to `k`, if any. -/
def mapLookup (k : Nat) : AmtMap → Option Amount
  | [] => none
  | (k2, v) :: rest => if k2 = k then some v else mapLookup k rest

/-- Delete every binding of `k` (at most one is ever present). -/
def eraseKey (k : Nat) : AmtMap → AmtMap
  | [] => []
  | (k2, v) :: rest => if k2 = k then eraseKey k rest else (k2, v) :: eraseKey k rest

/-- `HashMap::insert`: bind `k` to `v`, replacing any earlier binding. -/
def insertKV (k : Nat) (v : Amount) (m : AmtMap) : AmtMap :=
  (k, v) :: eraseKey k m

/-- The two domain errors an account operation can report
(`Error::NoTransaction`, `Error::NoDispute` in `src/error.rs`). -/
inductive AccountError where
  | noTransaction
  | noDispute
deriving DecidableEq, Repr

/-- `Account` from `src/account.rs`: balances, the two dispute maps and
the lock flag. -/
structure Account where
  client : Nat
  funds_available : Amount
  funds_held : Amount
  disputes : AmtMap
  disputable_transactions : AmtMap
  locked : Bool
deriving DecidableEq, Repr

/-- `Account::new(client)`: zero balances, empty maps, unlocked. -/
def Account.new (client : Nat) : Account :=
  { client := client
    funds_available := 0
    funds_held := 0
    disputes := []
    disputable_transactions := []
    locked := false }

/-- `Account::withdraw`: subtract from `funds_available`, record the
transaction as disputable; never fails.  The Rust method mutates in
place and returns `Result<()>`, embedded as a result/post-state pair. -/
def Account.withdraw (a : Account) (transaction_id : Nat) (amount : Amount) :
    Except AccountError Unit × Account :=
  (.ok (),
    { a with
      funds_available := a.funds_available - amount
      disputable_transactions :=
        insertKV transaction_id amount a.disputable_transactions })

/-- `Account::deposit`: add to `funds_available`, record the transaction
as disputable (overwriting any prior entry for the id); never fails. -/
def Account.deposit (a : Account) (transaction_id : Nat) (amount : Amount) :
    Except AccountError Unit × Account :=
  (.ok (),
    { a with
      funds_available := a.funds_available + amount
      disputable_transactions :=
        insertKV transaction_id amount a.disputable_transactions })

/-- `Account::resolve`: remove the id from `disputes` (else `NoDispute`,
state untouched); move the amount from `funds_held` back to
`funds_available` and reinsert the id into `disputable_transactions`. -/
def Account.resolve (a : Account) (transaction_id : Nat) :
    Except AccountError Unit × Account :=
  match mapLookup transaction_id a.disputes with
  | none => (.error .noDispute, a)
  | some disputed_amount =>
      (.ok (),
        { a with
          disputes := eraseKey transaction_id a.disputes
          funds_available := a.funds_available + disputed_amount
          funds_held := a.funds_held - disputed_amount
          disputable_transactions :=
            insertKV transaction_id disputed_amount a.disputable_transactions })

/-- `Account::chargeback`: remove the id from `disputes` (else
`NoDispute`, state untouched); subtract the amount from `funds_held` and
set `locked`.  The id is not reinserted anywhere. -/
def Account.chargeback (a : Account) (transaction_id : Nat) :
    Except AccountError Unit × Account :=
  match mapLookup transaction_id a.disputes with
  | none => (.error .noDispute, a)
  | some disputed_amount =>
      (.ok (),
        { a with
          disputes := eraseKey transaction_id a.disputes
          funds_held := a.funds_held - disputed_amount
          locked := true })

/-- `Account::dispute`: remove the id from `disputable_transactions`
(else `NoTransaction`, state untouched); move the amount from
`funds_available` to `funds_held` and insert the id into `disputes`. -/
def Account.dispute (a : Account) (transaction_id : Nat) :
    Except AccountError Unit × Account :=
  match mapLookup transaction_id a.disputable_transactions with
  | none => (.error .noTransaction, a)
  | some disputed_amount =>
      (.ok (),
        { a with
          disputable_transactions :=
            eraseKey transaction_id a.disputable_transactions
          funds_available := a.funds_available - disputed_amount
          funds_held := a.funds_held + disputed_amount
          disputes := insertKV transaction_id disputed_amount a.disputes })

/-- The five ledger operations, in the vocabulary of the input rows. -/
inductive Op where
  | deposit (tx : Nat) (amount : Amount)
  | withdraw (tx : Nat) (amount : Amount)
  | dispute (tx : Nat)
  | resolve (tx : Nat)
  | chargeback (tx : Nat)
deriving DecidableEq, Repr

/-- Run one operation; a failing operation reports its error (the
post-state of a failing Rust call equals the pre-state). -/
def applyOp (a : Account) (op : Op) : Except AccountError Account :=
  let step :=
    match op with
    | .deposit tx amount => a.deposit tx amount
    | .withdraw tx amount => a.withdraw tx amount
    | .dispute tx => a.dispute tx
    | .resolve tx => a.resolve tx
    | .chargeback tx => a.chargeback tx
  match step with
  | (.ok _, a2) => .ok a2
  | (.error e, _) => .error e

/-- Run a sequence of operations, stopping at the first failure. -/
def applyOps (a : Account) : List Op → Except AccountError Account
  | [] => .ok a
  | op :: ops =>
      match applyOp a op with
      | .error e => .error e
      | .ok a2 => applyOps a2 ops

/-- Signed contribution of one operation to the deposit/withdrawal net:
the amount for a deposit, its negation for a withdrawal, zero otherwise. -/
def opFlow : Op → Amount
  | .deposit _ amount => amount
  | .withdraw _ amount => -amount
  | _ => 0

/-- Net flow of a sequence: deposit amounts minus withdrawal amounts. -/
def netFlow : List Op → Amount
  | [] => 0
  | op :: ops => opFlow op + netFlow ops

/-- The amount a single operation removes by chargeback from the given
state (zero for every other operation). -/
def opCharged (a : Account) : Op → Amount
  | .chargeback tx =>
      (match mapLookup tx a.disputes with
       | some amt => amt
       | none => 0)
  | _ => 0

/-- Total amount removed by the successful chargebacks of a run. -/
def chargedBack (a : Account) : List Op → Amount
  | [] => 0
  | op :: ops =>
      match applyOp a op with
      | .error _ => 0
      | .ok a2 => opCharged a op + chargedBack a2 ops

/-- No transaction id is a key of both dispute maps at once. -/
def DisjointMaps (a : Account) : Prop :=
  ∀ k, mapLookup k a.disputable_transactions = none ∨ mapLookup k a.disputes = none

/-- A deposit or withdrawal is safe when its transaction id is not
currently under active dispute. -/
def safeOp (a : Account) (op : Op) : Bool :=
  match op with
  | .deposit tx _ => (mapLookup tx a.disputes).isNone
  | .withdraw tx _ => (mapLookup tx a.disputes).isNone
  | _ => true

/-- Every deposit/withdrawal of the run is safe at its point of
application. -/
def safeOps (a : Account) : List Op → Bool
  | [] => true
  | op :: ops =>
      safeOp a op &&
        (match applyOp a op with
         | .ok a2 => safeOps a2 ops
         | .error _ => true)

/-- Transaction id `T` is tracked by neither dispute map. -/
def TxUntracked (T : Nat) (a : Account) : Prop :=
  mapLookup T a.disputable_transactions = none ∧ mapLookup T a.disputes = none

/-- No deposit or withdrawal of the sequence reuses transaction id `T`. -/
def avoidsTx (T : Nat) : List Op → Bool
  | [] => true
  | op :: ops =>
      (match op with
       | .deposit tx _ => tx != T
       | .withdraw tx _ => tx != T
       | _ => true) && avoidsTx T ops

/-! ## The streaming processor (`src/reader.rs`)

`parse_csv` is embedded over the stream of rows the CSV reader delivers:
each row carries the 1-based line number the reader reports for it and
its list of fields (already `Trim::All`-trimmed byte strings, embedded as
character lists).  File opening, byte buffering and UTF-8 decoding are
external collaborators and are not modelled; a field is always valid
text here. -/

/-- `TransactionType` from `src/reader.rs`. -/
inductive TransactionType where
  | Deposit
  | Withdrawal
  | Resolve
  | Dispute
  | Chargeback
deriving DecidableEq, Repr

/-- The variants of `crate::error::Error` reachable from `parse_csv`.
`lexicalParse` and `parse` stand for the transparent wrappers
`Error::LexicalParse` and `Error::Parse` around external parser errors;
those variants carry no line number. -/
inductive RErr where
  | missingTransactionType (line : Nat)
  | missingClient (line : Nat)
  | missingTransactionId (line : Nat)
  | missingAmount (line : Nat)
  | negativeAmount (line : Nat)
  | unknownTransactionType (line : Nat)
  | noTransaction (tx : Nat) (line : Nat)
  | noDispute (tx : Nat) (line : Nat)
  | lexicalParse
  | parse
deriving DecidableEq, Repr

/-- The line number an error reports, if it reports one at all. -/
def errLine : RErr → Option Nat
  | .missingTransactionType line => some line
  | .missingClient line => some line
  | .missingTransactionId line => some line
  | .missingAmount line => some line
  | .negativeAmount line => some line
  | .unknownTransactionType line => some line
  | .noTransaction _ line => some line
  | .noDispute _ line => some line
  | .lexicalParse => none
  | .parse => none

/-- `u8::is_ascii_whitespace`: space, tab, line feed, form feed,
carriage return. -/
def isAsciiWhitespace (c : Char) : Bool :=
  c = ' ' || c = '\t' || c = '\n' || c = Char.ofNat 12 || c = '\r'

/-- `trim_ascii` from `src/reader.rs`: strip leading and trailing ASCII
whitespace. -/
def trimAscii (s : List Char) : List Char :=
  ((s.dropWhile isAsciiWhitespace).reverse.dropWhile isAsciiWhitespace).reverse

/-- `parse_transaction_type` from `src/reader.rs`. -/
def parse_transaction_type (raw : List Char) (line_number : Nat) :
    Except RErr TransactionType :=
  let b := trimAscii raw
  if b = "deposit".data then .ok .Deposit
  else if b = "withdrawal".data then .ok .Withdrawal
  else if b = "dispute".data then .ok .Dispute
  else if b = "resolve".data then .ok .Resolve
  else if b = "chargeback".data then .ok .Chargeback
  else .error (.unknownTransactionType line_number)

/-- Accumulate a decimal digit string into a number; `none` on the empty
string or on any non-digit character. -/
def digitsToNatAux (acc : Nat) : List Char → Option Nat
  | [] => some acc
  | c :: cs =>
      if c.isDigit then digitsToNatAux (acc * 10 + (c.toNat - 48)) cs
      else none

def digitsToNat : List Char → Option Nat
  | [] => none
  | cs => digitsToNatAux 0 cs

/-- Modelled from the external `lexical_core::parse::<u16>`: a non-empty
all-digit string whose value fits in 16 bits; anything else is a lexical
error (which carries no line number). -/
def parseU16 (raw : List Char) : Except RErr Nat :=
  match digitsToNat raw with
  | some n => if n < 65536 then .ok n else .error .lexicalParse
  | none => .error .lexicalParse

/-- Modelled from the external `lexical_core::parse::<u64>`. -/
def parseU64 (raw : List Char) : Except RErr Nat :=
  match digitsToNat raw with
  | some n => if n < 18446744073709551616 then .ok n else .error .lexicalParse
  | none => .error .lexicalParse

/-- `i64::MAX`, the largest representable scaled amount. -/
def maxI64 : Nat := 9223372036854775807

/-- Modelled from the external `ConstScaleFpdec<i64, 4>` string parser:
digits with an optional point and at most four fractional digits, scaled
by `10^4` into the `i64` range; anything else is a parse error (which
carries no line number). -/
def parseFpdec (cs : List Char) : Except RErr Amount :=
  let intPart := cs.takeWhile Char.isDigit
  let rest := cs.dropWhile Char.isDigit
  match digitsToNat intPart with
  | none => .error .parse
  | some ip =>
      match rest with
      | [] =>
          if ip * 10000 ≤ maxI64 then .ok ((ip : Int) * 10000)
          else .error .parse
      | c :: frac =>
          if c = '.' then
            match digitsToNat frac with
            | none => .error .parse
            | some fp =>
                if frac.length ≤ 4 then
                  let scaled := ip * 10000 + fp * 10 ^ (4 - frac.length)
                  if scaled ≤ maxI64 then .ok (scaled : Int)
                  else .error .parse
                else .error .parse
          else .error .parse

/-- `parse_scaled_value` from `src/reader.rs`: trim; an empty field is
`None`; a leading minus is a `NegativeAmount` structural error; the rest
is handed to the fixed-point parser. -/
def parse_scaled_value (byte_array : List Char) (line_number : Nat) :
    Except RErr (Option Amount) :=
  let b := trimAscii byte_array
  match b with
  | [] => .ok none
  | c :: _ =>
      if c = '-' then .error (.negativeAmount line_number)
      else
        match parseFpdec b with
        | .ok v => .ok (some v)
        | .error e => .error e

/-- One input row as the CSV reader hands it over: its reported 1-based
line number and its trimmed fields. -/
structure Row where
  line : Nat
  fields : List (List Char)
deriving DecidableEq, Repr

/-- Association-list embedding of the `HashMap<u16, Account>` of
`parse_csv`. -/
def accLookup (k : Nat) : List (Nat × Account) → Option Account
  | [] => none
  | (k2, v) :: rest => if k2 = k then some v else accLookup k rest

def accErase (k : Nat) : List (Nat × Account) → List (Nat × Account)
  | [] => []
  | (k2, v) :: rest => if k2 = k then accErase k rest else (k2, v) :: accErase k rest

def accInsert (k : Nat) (v : Account) (m : List (Nat × Account)) :
    List (Nat × Account) :=
  (k, v) :: accErase k m

/-- The body of the `while` loop of `parse_csv` for one row: field
extraction, parsing, account lookup-or-create, dispatch, and the mapping
of account-level errors to line-addressed processor errors. -/
def processRow (accounts : List (Nat × Account)) (r : Row) :
    Except RErr (List (Nat × Account)) :=
  match r.fields[0]? with
  | none => .error (.missingTransactionType r.line)
  | some raw0 =>
  match parse_transaction_type raw0 r.line with
  | .error e => .error e
  | .ok transaction_type =>
  match r.fields[1]? with
  | none => .error (.missingClient r.line)
  | some raw1 =>
  match parseU16 raw1 with
  | .error e => .error e
  | .ok client =>
  match r.fields[2]? with
  | none => .error (.missingTransactionId r.line)
  | some raw2 =>
  match parseU64 raw2 with
  | .error e => .error e
  | .ok transaction_id =>
  match (match r.fields[3]? with
         | none => .ok none
         | some raw3 => parse_scaled_value raw3 r.line :
         Except RErr (Option Amount)) with
  | .error e => .error e
  | .ok amount_row =>
  let account :=
    match accLookup client accounts with
    | some acc => acc
    | none => Account.new client
  match transaction_type with
  | .Deposit =>
      match amount_row with
      | none => .error (.missingAmount r.line)
      | some amount =>
          .ok (accInsert client (account.deposit transaction_id amount).2 accounts)
  | .Withdrawal =>
      match amount_row with
      | none => .error (.missingAmount r.line)
      | some amount =>
          .ok (accInsert client (account.withdraw transaction_id amount).2 accounts)
  | .Dispute =>
      match account.dispute transaction_id with
      | (.error .noTransaction, _) => .error (.noTransaction transaction_id r.line)
      | (.error .noDispute, _) => .error (.noDispute transaction_id r.line)
      | (.ok _, acc2) => .ok (accInsert client acc2 accounts)
  | .Resolve =>
      match account.resolve transaction_id with
      | (.error .noTransaction, _) => .error (.noTransaction transaction_id r.line)
      | (.error .noDispute, _) => .error (.noDispute transaction_id r.line)
      | (.ok _, acc2) => .ok (accInsert client acc2 accounts)
  | .Chargeback =>
      match account.chargeback transaction_id with
      | (.error .noTransaction, _) => .error (.noTransaction transaction_id r.line)
      | (.error .noDispute, _) => .error (.noDispute transaction_id r.line)
      | (.ok _, acc2) => .ok (accInsert client acc2 accounts)

/-- The `while` loop of `parse_csv`: rows in order, stopping at the
first error; on failure no account map is produced. -/
def runRows (accounts : List (Nat × Account)) :
    List Row → Except RErr (List (Nat × Account))
  | [] => .ok accounts
  | r :: rs =>
      match processRow accounts r with
      | .error e => .error e
      | .ok accounts2 => runRows accounts2 rs

/-- `parse_csv` from `src/reader.rs`, over the delivered row stream. -/
def parse_csv (rows : List Row) : Except RErr (List (Nat × Account)) :=
  runRows [] rows

/-- A sample account holding one active dispute (id 1, amount 100.0) and
one disputable transaction (id 2, amount 30.0). -/
def wAccDisputed : Account :=
  { client := 1, funds_available := 0, funds_held := dec 100
    disputes := [(1, dec 100)], disputable_transactions := [(2, dec 30)]
    locked := false }

/-- A sample account with a disputable deposit of 100.0 under id 1. -/
def wAccDisputable : Account :=
  { client := 1, funds_available := dec 100, funds_held := 0
    disputes := [], disputable_transactions := [(1, dec 100)]
    locked := false }

section MapLemmas

theorem mapLookup_insert_self (k : Nat) (v : Amount) (m : AmtMap) :
    mapLookup k (insertKV k v m) = some v := by
  simp [insertKV, mapLookup]

theorem mapLookup_erase_self (k : Nat) (m : AmtMap) :
    mapLookup k (eraseKey k m) = none := by
  induction m with
  | nil => rfl
  | cons hd tl ih =>
      obtain ⟨k2, v⟩ := hd
      by_cases h : k2 = k
      · simpa [eraseKey, h] using ih
      · simpa [eraseKey, mapLookup, h] using ih

theorem mapLookup_erase_ne (k k2 : Nat) (m : AmtMap) (h : k2 ≠ k) :
    mapLookup k (eraseKey k2 m) = mapLookup k m := by
  induction m with
  | nil => rfl
  | cons hd tl ih =>
      obtain ⟨k3, v⟩ := hd
      by_cases h3 : k3 = k2
      · subst h3
        simpa [eraseKey, mapLookup, h] using ih
      · by_cases h4 : k3 = k
        · subst h4
          simp [eraseKey, mapLookup, h3]
        · simpa [eraseKey, mapLookup, h3, h4] using ih

theorem mapLookup_insert_ne (k k2 : Nat) (v : Amount) (m : AmtMap)
    (h : k2 ≠ k) : mapLookup k (insertKV k2 v m) = mapLookup k m := by
  simp [insertKV, mapLookup, h, mapLookup_erase_ne k k2 m h]

end MapLemmas

/-- C6: disputing an id not currently disputable fails with the
`NoTransaction` error, and resolving or charging back an id with no
active dispute fails with the `NoDispute` error; each failing call also
returns the account exactly unchanged (balances, lock flag and both
maps). -/
theorem failed_ops_are_noops (a : Account) (T : Nat) :
    (mapLookup T a.disputable_transactions = none →
      a.dispute T = (.error .noTransaction, a))
    ∧ (mapLookup T a.disputes = none →
      a.resolve T = (.error .noDispute, a)
      ∧ a.chargeback T = (.error .noDispute, a)) := by
  constructor
  · intro h
    simp [Account.dispute, h]
  · intro h
    exact ⟨by simp [Account.resolve, h], by simp [Account.chargeback, h]⟩

theorem failed_ops_are_noops_witness :
    ((Account.new 7).dispute 5 = (.error .noTransaction, Account.new 7))
    ∧ ((Account.new 7).resolve 5 = (.error .noDispute, Account.new 7)
       ∧ (Account.new 7).chargeback 5 = (.error .noDispute, Account.new 7)) :=
  ⟨(failed_ops_are_noops (Account.new 7) 5).1 rfl,
   (failed_ops_are_noops (Account.new 7) 5).2 rfl⟩

/-- C7: from a state in which transaction `T` has an active dispute of
amount `amt`, `chargeback T` succeeds, removes `T` from `disputes`,
lowers `funds_held` by exactly `amt`, sets `locked`, and leaves
`disputable_transactions` without any new entry for `T` (in fact
entirely unchanged). -/
theorem chargeback_success_spec (a : Account) (T : Nat) (amt : Amount)
    (h : mapLookup T a.disputes = some amt) :
    (a.chargeback T).1 = .ok ()
    ∧ (a.chargeback T).2.disputes = eraseKey T a.disputes
    ∧ mapLookup T (a.chargeback T).2.disputes = none
    ∧ (a.chargeback T).2.funds_held = a.funds_held - amt
    ∧ (a.chargeback T).2.locked = true
    ∧ (a.chargeback T).2.disputable_transactions = a.disputable_transactions := by
  refine ⟨?_, ?_, ?_, ?_, ?_, ?_⟩ <;>
    simp [Account.chargeback, h, mapLookup_erase_self]

theorem chargeback_success_spec_witness :
    (wAccDisputed.chargeback 1).1 = .ok ()
    ∧ (wAccDisputed.chargeback 1).2.disputes = eraseKey 1 wAccDisputed.disputes
    ∧ mapLookup 1 (wAccDisputed.chargeback 1).2.disputes = none
    ∧ (wAccDisputed.chargeback 1).2.funds_held = wAccDisputed.funds_held - dec 100
    ∧ (wAccDisputed.chargeback 1).2.locked = true
    ∧ (wAccDisputed.chargeback 1).2.disputable_transactions
        = wAccDisputed.disputable_transactions :=
  chargeback_success_spec wAccDisputed 1 (dec 100) rfl

/-- C10: a successful chargeback of `T` leaves `funds_available`, the
client id, the whole disputable map, and every `disputes` entry with a
key other than `T` unchanged; its only effects are dropping `T` from
`disputes`, lowering `funds_held` by the disputed amount, and setting
`locked`. -/
theorem chargeback_frame (a : Account) (T : Nat) (amt : Amount)
    (h : mapLookup T a.disputes = some amt) :
    (a.chargeback T).2.funds_available = a.funds_available
    ∧ (a.chargeback T).2.client = a.client
    ∧ (a.chargeback T).2.disputable_transactions = a.disputable_transactions
    ∧ (∀ k, k ≠ T → mapLookup k (a.chargeback T).2.disputes = mapLookup k a.disputes)
    ∧ mapLookup T (a.chargeback T).2.disputes = none
    ∧ (a.chargeback T).2.funds_held = a.funds_held - amt
    ∧ (a.chargeback T).2.locked = true := by
  refine ⟨by simp [Account.chargeback, h], by simp [Account.chargeback, h],
    by simp [Account.chargeback, h],
    fun k hk => by
      simp [Account.chargeback, h, mapLookup_erase_ne k T a.disputes (Ne.symm hk)],
    by simp [Account.chargeback, h, mapLookup_erase_self],
    by simp [Account.chargeback, h], by simp [Account.chargeback, h]⟩

theorem chargeback_frame_witness :
    (wAccDisputed.chargeback 1).2.funds_available = wAccDisputed.funds_available
    ∧ (wAccDisputed.chargeback 1).2.client = wAccDisputed.client
    ∧ (wAccDisputed.chargeback 1).2.disputable_transactions
        = wAccDisputed.disputable_transactions
    ∧ (∀ k, k ≠ 1 →
        mapLookup k (wAccDisputed.chargeback 1).2.disputes
          = mapLookup k wAccDisputed.disputes)
    ∧ mapLookup 1 (wAccDisputed.chargeback 1).2.disputes = none
    ∧ (wAccDisputed.chargeback 1).2.funds_held = wAccDisputed.funds_held - dec 100
    ∧ (wAccDisputed.chargeback 1).2.locked = true :=
  chargeback_frame wAccDisputed 1 (dec 100) rfl

/-- C8: from any state in which `dispute T` succeeds, running
`dispute T`, `resolve T`, `dispute T` ends with the same
`funds_available` and `funds_held` as after the first `dispute T`
alone. -/
theorem dispute_resolve_dispute_roundtrip (a : Account) (T : Nat)
    (h : (a.dispute T).1 = .ok ()) :
    ((((a.dispute T).2.resolve T).2.dispute T).2.funds_available
        = (a.dispute T).2.funds_available)
    ∧ ((((a.dispute T).2.resolve T).2.dispute T).2.funds_held
        = (a.dispute T).2.funds_held) := by
  cases hl : mapLookup T a.disputable_transactions with
  | none => simp [Account.dispute, hl] at h
  | some amt =>
      simp only [Account.dispute, Account.resolve, hl, mapLookup_insert_self]
      constructor <;> ring

theorem dispute_resolve_dispute_roundtrip_witness :
    ((((wAccDisputable.dispute 1).2.resolve 1).2.dispute 1).2.funds_available
        = (wAccDisputable.dispute 1).2.funds_available)
    ∧ ((((wAccDisputable.dispute 1).2.resolve 1).2.dispute 1).2.funds_held
        = (wAccDisputable.dispute 1).2.funds_held) :=
  dispute_resolve_dispute_roundtrip wAccDisputable 1 rfl

/-- C9: on a fresh account, `deposit 1 100.0` followed by
`deposit 1 50.0` under the same transaction id leaves only the latter
amount 50.0 disputable; `dispute 1` then succeeds and yields
`funds_held = 50.0` and `funds_available = 100.0`. -/
theorem duplicate_id_latest_wins :
    (((Account.new 1).deposit 1 (dec 100)).2.deposit 1 (dec 50)).2.disputable_transactions
        = [(1, dec 50)]
    ∧ ((((Account.new 1).deposit 1 (dec 100)).2.deposit 1 (dec 50)).2.dispute 1).1
        = .ok ()
    ∧ ((((Account.new 1).deposit 1 (dec 100)).2.deposit 1 (dec 50)).2.dispute 1).2.funds_held
        = dec 50
    ∧ ((((Account.new 1).deposit 1 (dec 100)).2.deposit 1 (dec 50)).2.dispute 1).2.funds_available
        = dec 100 := by
  decide

theorem netFlow_cons (op : Op) (ops : List Op) :
    netFlow (op :: ops) = opFlow op + netFlow ops := rfl

theorem chargedBack_cons_ok (a a2 : Account) (op : Op) (ops : List Op)
    (hop : applyOp a op = .ok a2) :
    chargedBack a (op :: ops) = opCharged a op + chargedBack a2 ops := by
  simp only [chargedBack, hop]

/-- One successful operation changes `funds_available + funds_held` by
exactly its deposit/withdrawal flow minus any charged-back amount. -/
theorem applyOp_total (a : Account) (op : Op) (a2 : Account)
    (h : applyOp a op = .ok a2) :
    a2.funds_available + a2.funds_held =
      a.funds_available + a.funds_held + opFlow op - opCharged a op := by
  cases op with
  | deposit tx amt =>
      simp only [applyOp, Account.deposit] at h
      injection h with h
      subst h
      simp [opFlow, opCharged]
      ring
  | withdraw tx amt =>
      simp only [applyOp, Account.withdraw] at h
      injection h with h
      subst h
      simp [opFlow, opCharged]
      ring
  | dispute tx =>
      cases hl : mapLookup tx a.disputable_transactions with
      | none => simp [applyOp, Account.dispute, hl] at h
      | some amt =>
          simp only [applyOp, Account.dispute, hl] at h
          injection h with h
          subst h
          simp [opFlow, opCharged]
  | resolve tx =>
      cases hl : mapLookup tx a.disputes with
      | none => simp [applyOp, Account.resolve, hl] at h
      | some amt =>
          simp only [applyOp, Account.resolve, hl] at h
          injection h with h
          subst h
          simp [opFlow, opCharged]
  | chargeback tx =>
      cases hl : mapLookup tx a.disputes with
      | none => simp [applyOp, Account.chargeback, hl] at h
      | some amt =>
          simp only [applyOp, Account.chargeback, hl] at h
          injection h with h
          subst h
          simp [opFlow, opCharged, hl]
          ring

/-- C1 (amended): along every successfully applied operation sequence,
`funds_available + funds_held` equals the starting total plus the net of
deposits minus withdrawals, minus the amounts permanently removed by
successful chargebacks; dispute and resolve activity never changes the
total. -/
theorem ledger_total_conservation (ops : List Op) (a s : Account)
    (h : applyOps a ops = .ok s) :
    s.funds_available + s.funds_held =
      a.funds_available + a.funds_held + netFlow ops - chargedBack a ops := by
  induction ops generalizing a with
  | nil =>
      simp only [applyOps] at h
      injection h with h
      subst h
      simp [netFlow, chargedBack]
  | cons op ops ih =>
      rw [applyOps] at h
      cases hop : applyOp a op with
      | error e => rw [hop] at h; cases h
      | ok a2 =>
          rw [hop] at h
          have hstep := applyOp_total a op a2 hop
          have ihh := ih a2 h
          rw [netFlow_cons, chargedBack_cons_ok a a2 op ops hop]
          linarith [ihh, hstep]

theorem ledger_total_conservation_witness :
    (⟨1, dec (-30), 0, [], [(2, dec 30)], true⟩ : Account).funds_available
        + (⟨1, dec (-30), 0, [], [(2, dec 30)], true⟩ : Account).funds_held =
      (Account.new 1).funds_available + (Account.new 1).funds_held
        + netFlow [.deposit 1 (dec 100), .withdraw 2 (dec 30), .dispute 1, .chargeback 1]
        - chargedBack (Account.new 1)
            [.deposit 1 (dec 100), .withdraw 2 (dec 30), .dispute 1, .chargeback 1] :=
  ledger_total_conservation
    [.deposit 1 (dec 100), .withdraw 2 (dec 30), .dispute 1, .chargeback 1]
    (Account.new 1) ⟨1, dec (-30), 0, [], [(2, dec 30)], true⟩ (by decide)

/-- C1 as stated is false: a chargeback removes funds from the total, so
after `deposit 1 100.0; dispute 1; chargeback 1` the fresh account has
`funds_available + funds_held = 0` while the deposit/withdrawal net is
`100.0`. -/
theorem ledger_total_conservation_cex :
    ¬ (∀ (client : Nat) (ops : List Op) (s : Account),
        applyOps (Account.new client) ops = .ok s →
        s.funds_available + s.funds_held = netFlow ops) := by
  intro h
  have h2 := h 1 [.deposit 1 (dec 100), .dispute 1, .chargeback 1]
      ⟨1, 0, 0, [], [], true⟩ (by decide)
  exact absurd h2 (by decide)

theorem mapLookup_erase_none (k k2 : Nat) (m : AmtMap)
    (h : mapLookup k m = none) : mapLookup k (eraseKey k2 m) = none := by
  by_cases hk : k2 = k
  · subst hk
    exact mapLookup_erase_self k2 m
  · rw [mapLookup_erase_ne k k2 m hk]
    exact h

/-- One safe successful operation preserves disjointness of the two
dispute maps. -/
theorem disjoint_step (a : Account) (op : Op) (a2 : Account)
    (hd : DisjointMaps a) (hs : safeOp a op = true)
    (h : applyOp a op = .ok a2) : DisjointMaps a2 := by
  intro k
  cases op with
  | deposit tx amt =>
      simp only [safeOp, Option.isNone_iff_eq_none] at hs
      simp only [applyOp, Account.deposit] at h
      injection h with h
      subst h
      by_cases hk : tx = k
      · subst hk
        exact Or.inr hs
      · rw [mapLookup_insert_ne k tx amt _ hk]
        exact hd k
  | withdraw tx amt =>
      simp only [safeOp, Option.isNone_iff_eq_none] at hs
      simp only [applyOp, Account.withdraw] at h
      injection h with h
      subst h
      by_cases hk : tx = k
      · subst hk
        exact Or.inr hs
      · rw [mapLookup_insert_ne k tx amt _ hk]
        exact hd k
  | dispute tx =>
      cases hl : mapLookup tx a.disputable_transactions with
      | none => simp [applyOp, Account.dispute, hl] at h
      | some amt =>
          simp only [applyOp, Account.dispute, hl] at h
          injection h with h
          subst h
          by_cases hk : tx = k
          · subst hk
            exact Or.inl (mapLookup_erase_self tx _)
          · rw [mapLookup_erase_ne k tx _ hk, mapLookup_insert_ne k tx amt _ hk]
            exact hd k
  | resolve tx =>
      cases hl : mapLookup tx a.disputes with
      | none => simp [applyOp, Account.resolve, hl] at h
      | some amt =>
          simp only [applyOp, Account.resolve, hl] at h
          injection h with h
          subst h
          by_cases hk : tx = k
          · subst hk
            exact Or.inr (mapLookup_erase_self tx _)
          · rw [mapLookup_erase_ne k tx _ hk, mapLookup_insert_ne k tx amt _ hk]
            exact hd k
  | chargeback tx =>
      cases hl : mapLookup tx a.disputes with
      | none => simp [applyOp, Account.chargeback, hl] at h
      | some amt =>
          simp only [applyOp, Account.chargeback, hl] at h
          injection h with h
          subst h
          by_cases hk : tx = k
          · subst hk
            exact Or.inr (mapLookup_erase_self tx _)
          · rw [mapLookup_erase_ne k tx _ hk]
            exact hd k

/-- C2 (amended): a transaction id is a key of at most one of
`disputable_transactions` and `disputes` at every point of a successful
run, provided no deposit or withdrawal of the run reuses a transaction
id that is under active dispute at its point of application. -/
theorem dispute_maps_disjoint (ops : List Op) (a s : Account)
    (hd : DisjointMaps a) (hs : safeOps a ops = true)
    (h : applyOps a ops = .ok s) : DisjointMaps s := by
  induction ops generalizing a with
  | nil =>
      simp only [applyOps] at h
      injection h with h
      subst h
      exact hd
  | cons op ops ih =>
      rw [applyOps] at h
      cases hop : applyOp a op with
      | error e => rw [hop] at h; cases h
      | ok a2 =>
          rw [hop] at h
          rw [safeOps, hop] at hs
          simp only [Bool.and_eq_true] at hs
          exact ih a2 (disjoint_step a op a2 hd hs.1 hop) hs.2 h

theorem dispute_maps_disjoint_witness :
    DisjointMaps (⟨1, dec 90, 0, [], [(2, dec 10), (1, dec 100)], false⟩ : Account) :=
  dispute_maps_disjoint
    [.deposit 1 (dec 100), .dispute 1, .resolve 1, .withdraw 2 (dec 10)]
    (Account.new 1) ⟨1, dec 90, 0, [], [(2, dec 10), (1, dec 100)], false⟩
    (fun _ => Or.inl rfl) (by decide) (by decide)

/-- C2 as stated is false: after `deposit 1 100.0; dispute 1;
deposit 1 50.0` on a fresh account, id 1 is a key of both
`disputable_transactions` (amount 50.0) and `disputes` (amount 100.0)
simultaneously. -/
theorem dispute_maps_disjoint_cex :
    ¬ (∀ (client : Nat) (ops : List Op) (s : Account),
        applyOps (Account.new client) ops = .ok s → DisjointMaps s) := by
  intro h
  have h2 := h 1 [.deposit 1 (dec 100), .dispute 1, .deposit 1 (dec 50)]
      ⟨1, dec 50, dec 100, [(1, dec 100)], [(1, dec 50)], false⟩ (by decide)
  rcases h2 1 with h3 | h3 <;> exact absurd h3 (by decide)

/-- No operation ever clears the lock flag. -/
theorem applyOp_locked (a : Account) (op : Op) (a2 : Account)
    (h : applyOp a op = .ok a2) (hl : a.locked = true) : a2.locked = true := by
  cases op with
  | deposit tx amt =>
      simp only [applyOp, Account.deposit] at h
      injection h with h
      subst h
      exact hl
  | withdraw tx amt =>
      simp only [applyOp, Account.withdraw] at h
      injection h with h
      subst h
      exact hl
  | dispute tx =>
      cases hlk : mapLookup tx a.disputable_transactions with
      | none => simp [applyOp, Account.dispute, hlk] at h
      | some amt =>
          simp only [applyOp, Account.dispute, hlk] at h
          injection h with h
          subst h
          exact hl
  | resolve tx =>
      cases hlk : mapLookup tx a.disputes with
      | none => simp [applyOp, Account.resolve, hlk] at h
      | some amt =>
          simp only [applyOp, Account.resolve, hlk] at h
          injection h with h
          subst h
          exact hl
  | chargeback tx =>
      cases hlk : mapLookup tx a.disputes with
      | none => simp [applyOp, Account.chargeback, hlk] at h
      | some amt =>
          simp only [applyOp, Account.chargeback, hlk] at h
          injection h with h
          subst h
          rfl

theorem locked_run (ops : List Op) (a s : Account) (hl : a.locked = true)
    (h : applyOps a ops = .ok s) : s.locked = true := by
  induction ops generalizing a with
  | nil =>
      simp only [applyOps] at h
      injection h with h
      subst h
      exact hl
  | cons op ops ih =>
      rw [applyOps] at h
      cases hop : applyOp a op with
      | error e => rw [hop] at h; cases h
      | ok a2 =>
          rw [hop] at h
          exact ih a2 (applyOp_locked a op a2 hop hl) h

/-- A successful operation that is not a deposit or withdrawal on `T`
keeps `T` out of both dispute maps. -/
theorem untracked_step (T : Nat) (a : Account) (op : Op) (a2 : Account)
    (hT : TxUntracked T a)
    (hav : (match op with
            | Op.deposit tx _ => tx != T
            | Op.withdraw tx _ => tx != T
            | _ => true) = true)
    (h : applyOp a op = .ok a2) : TxUntracked T a2 := by
  obtain ⟨hT1, hT2⟩ := hT
  cases op with
  | deposit tx amt =>
      simp only [bne_iff_ne] at hav
      simp only [applyOp, Account.deposit] at h
      injection h with h
      subst h
      exact ⟨by rw [mapLookup_insert_ne T tx amt _ hav]; exact hT1, hT2⟩
  | withdraw tx amt =>
      simp only [bne_iff_ne] at hav
      simp only [applyOp, Account.withdraw] at h
      injection h with h
      subst h
      exact ⟨by rw [mapLookup_insert_ne T tx amt _ hav]; exact hT1, hT2⟩
  | dispute tx =>
      cases hlk : mapLookup tx a.disputable_transactions with
      | none => simp [applyOp, Account.dispute, hlk] at h
      | some amt =>
          have htx : tx ≠ T := by
            intro he
            rw [he, hT1] at hlk
            cases hlk
          simp only [applyOp, Account.dispute, hlk] at h
          injection h with h
          subst h
          exact ⟨mapLookup_erase_none T tx _ hT1,
            by rw [mapLookup_insert_ne T tx amt _ htx]; exact hT2⟩
  | resolve tx =>
      cases hlk : mapLookup tx a.disputes with
      | none => simp [applyOp, Account.resolve, hlk] at h
      | some amt =>
          have htx : tx ≠ T := by
            intro he
            rw [he, hT2] at hlk
            cases hlk
          simp only [applyOp, Account.resolve, hlk] at h
          injection h with h
          subst h
          exact ⟨by rw [mapLookup_insert_ne T tx amt _ htx]; exact hT1,
            mapLookup_erase_none T tx _ hT2⟩
  | chargeback tx =>
      cases hlk : mapLookup tx a.disputes with
      | none => simp [applyOp, Account.chargeback, hlk] at h
      | some amt =>
          simp only [applyOp, Account.chargeback, hlk] at h
          injection h with h
          subst h
          exact ⟨hT1, mapLookup_erase_none T tx _ hT2⟩

theorem untracked_run (T : Nat) (ops : List Op) (a s : Account)
    (hT : TxUntracked T a) (hav : avoidsTx T ops = true)
    (h : applyOps a ops = .ok s) : TxUntracked T s := by
  induction ops generalizing a with
  | nil =>
      simp only [applyOps] at h
      injection h with h
      subst h
      exact hT
  | cons op ops ih =>
      rw [applyOps] at h
      simp only [avoidsTx, Bool.and_eq_true] at hav
      cases hop : applyOp a op with
      | error e => rw [hop] at h; cases h
      | ok a2 =>
          rw [hop] at h
          exact ih a2 (untracked_step T a op a2 hT hav.1 hop) hav.2 h

/-- C3 (amended): after a successful `chargeback T` the lock flag is
true and stays true under every further successful operation sequence;
and provided `T` is not also sitting in `disputable_transactions` at the
moment of the chargeback (as it can be when a deposit or withdrawal
reused id `T` while it was disputed), then after any further sequence
containing no deposit or withdrawal with id `T`, `dispute T`,
`resolve T` and `chargeback T` all still fail. -/
theorem chargeback_terminal (a : Account) (T : Nat)
    (h : (a.chargeback T).1 = .ok ()) :
    ((a.chargeback T).2.locked = true
     ∧ ∀ ops s2, applyOps (a.chargeback T).2 ops = .ok s2 → s2.locked = true)
    ∧ (mapLookup T (a.chargeback T).2.disputable_transactions = none →
       ∀ ops s2, avoidsTx T ops = true → applyOps (a.chargeback T).2 ops = .ok s2 →
         (s2.dispute T).1 = .error .noTransaction
         ∧ (s2.resolve T).1 = .error .noDispute
         ∧ (s2.chargeback T).1 = .error .noDispute) := by
  cases hl : mapLookup T a.disputes with
  | none => simp [Account.chargeback, hl] at h
  | some amt =>
      have hlocked : (a.chargeback T).2.locked = true := by
        simp [Account.chargeback, hl]
      have hgone : mapLookup T (a.chargeback T).2.disputes = none := by
        simp [Account.chargeback, hl, mapLookup_erase_self]
      refine ⟨⟨hlocked, fun ops s2 hrun => locked_run ops _ s2 hlocked hrun⟩, ?_⟩
      intro hdisp ops s2 hav hrun
      have hT : TxUntracked T s2 :=
        untracked_run T ops _ s2 ⟨hdisp, hgone⟩ hav hrun
      exact ⟨by simp [Account.dispute, hT.1], by simp [Account.resolve, hT.2],
        by simp [Account.chargeback, hT.2]⟩

theorem chargeback_terminal_witness :
    ((wAccDisputed.chargeback 1).2.locked = true
     ∧ ∀ ops s2, applyOps (wAccDisputed.chargeback 1).2 ops = .ok s2 →
         s2.locked = true)
    ∧ (mapLookup 1 (wAccDisputed.chargeback 1).2.disputable_transactions = none →
       ∀ ops s2, avoidsTx 1 ops = true →
         applyOps (wAccDisputed.chargeback 1).2 ops = .ok s2 →
           (s2.dispute 1).1 = .error .noTransaction
           ∧ (s2.resolve 1).1 = .error .noDispute
           ∧ (s2.chargeback 1).1 = .error .noDispute) :=
  chargeback_terminal wAccDisputed 1 rfl

/-- C3 as stated is false: charge back id 1, then deposit again under
the same id 1 — the deposit re-registers id 1 as disputable, and
`dispute 1` succeeds once more. -/
theorem chargeback_terminal_cex :
    ¬ (∀ (a : Account) (T : Nat), (a.chargeback T).1 = .ok () →
        ∀ (ops : List Op) (s2 : Account),
          applyOps (a.chargeback T).2 ops = .ok s2 →
            s2.locked = true
            ∧ ¬ (s2.dispute T).1 = .ok ()
            ∧ ¬ (s2.resolve T).1 = .ok ()
            ∧ ¬ (s2.chargeback T).1 = .ok ()) := by
  intro h
  have h2 := h ⟨1, 0, dec 100, [(1, dec 100)], [], false⟩ 1 (by decide)
      [.deposit 1 (dec 50)] ⟨1, dec 50, 0, [], [(1, dec 50)], true⟩ (by decide)
  exact absurd (by decide : ((⟨1, dec 50, 0, [], [(1, dec 50)], true⟩ :
      Account).dispute 1).1 = .ok ()) h2.2.1

theorem parse_transaction_type_error_shape (raw : List Char) (line : Nat)
    (e : RErr) (h : parse_transaction_type raw line = .error e) :
    e = .unknownTransactionType line := by
  simp only [parse_transaction_type] at h
  split_ifs at h
  all_goals simp_all

theorem parseU16_error_shape (raw : List Char) (e : RErr)
    (h : parseU16 raw = .error e) : e = .lexicalParse := by
  simp only [parseU16] at h
  split at h
  · split_ifs at h
    all_goals simp_all
  · simp_all

theorem parseU64_error_shape (raw : List Char) (e : RErr)
    (h : parseU64 raw = .error e) : e = .lexicalParse := by
  simp only [parseU64] at h
  split at h
  · split_ifs at h
    all_goals simp_all
  · simp_all

theorem parseFpdec_error_shape (cs : List Char) (e : RErr)
    (h : parseFpdec cs = .error e) : e = .parse := by
  simp only [parseFpdec] at h
  repeat' (first | (split at h) | (split_ifs at h))
  all_goals simp_all

theorem parse_scaled_value_error_shape (b : List Char) (line : Nat)
    (e : RErr) (h : parse_scaled_value b line = .error e) :
    e = .negativeAmount line ∨ e = .parse := by
  simp only [parse_scaled_value] at h
  split at h
  · simp_all
  · split_ifs at h
    · simp_all
    · split at h
      · simp_all
      · refine Or.inr ?_
        rename_i e2 heq
        injection h with h
        subst h
        exact parseFpdec_error_shape _ e2 heq

/-- Every error `processRow` reports either carries the offending row's
line number or (for the wrapped external numeric-parse errors) carries
no line number at all. -/
theorem processRow_error_line (m : List (Nat × Account)) (r : Row) (e : RErr)
    (h : processRow m r = .error e) :
    ∀ n, errLine e = some n → n = r.line := by
  simp only [processRow] at h
  split at h
  · injection h with h; subst h; intro n hn; injection hn with hn; exact hn.symm
  · split at h
    · rename_i e2 heq
      injection h with h
      subst h
      rw [parse_transaction_type_error_shape _ _ _ heq]
      intro n hn; injection hn with hn; exact hn.symm
    · split at h
      · injection h with h; subst h; intro n hn; injection hn with hn; exact hn.symm
      · split at h
        · rename_i e2 heq
          injection h with h
          subst h
          rw [parseU16_error_shape _ _ heq]
          intro n hn; cases hn
        · split at h
          · injection h with h; subst h; intro n hn; injection hn with hn
            exact hn.symm
          · split at h
            · rename_i e2 heq
              injection h with h
              subst h
              rw [parseU64_error_shape _ _ heq]
              intro n hn; cases hn
            · split at h
              · rename_i e2 heq
                injection h with h
                subst h
                -- the amount slot: either absent (no error) or parsed
                rcases hsplit : r.fields[3]? with _ | raw3
                · rw [hsplit] at heq; cases heq
                · rw [hsplit] at heq
                  rcases parse_scaled_value_error_shape _ _ _ heq with hs | hs
                  · subst hs; intro n hn; injection hn with hn; exact hn.symm
                  · subst hs; intro n hn; cases hn
              · split at h <;>
                  [skip; skip; (split at h); (split at h); (split at h)] <;>
                  first
                    | (split at h
                       · injection h with h; subst h; intro n hn
                         injection hn with hn; exact hn.symm
                       · cases h)
                    | (injection h with h; subst h; intro n hn
                       injection hn with hn; exact hn.symm)
                    | cases h

/-- C4 (amended): processing is fail-fast — the first row on which
`processRow` fails aborts the whole run with that row's error, no later
row is processed and no account map is returned; whenever the error
carries a line number it is the offending row's reported 1-based line
number, but the wrapped external parse errors for malformed numeric
literals (`LexicalParse`, `Parse`) carry no line number. -/
theorem processor_fail_fast (m : List (Nat × Account)) (r : Row) (e : RErr)
    (h : processRow m r = .error e) :
    (∀ rs, runRows m (r :: rs) = .error e)
    ∧ (∀ n, errLine e = some n → n = r.line) := by
  constructor
  · intro rs
    simp [runRows, h]
  · exact processRow_error_line m r e h

theorem processor_fail_fast_witness :
    (∀ rs, runRows [] (⟨5, ["frobnicate".data, "1".data, "1".data]⟩ :: rs)
        = .error (.unknownTransactionType 5))
    ∧ (∀ n, errLine (.unknownTransactionType 5) = some n → n = 5) :=
  processor_fail_fast [] ⟨5, ["frobnicate".data, "1".data, "1".data]⟩
    (.unknownTransactionType 5) (by decide)

/-- C4 as stated is false in one respect: a malformed numeric literal
(here the client field `abc`) aborts the run with the wrapped external
lexical error, which carries no line number at all. -/
theorem processor_fail_fast_cex :
    ¬ (∀ (m : List (Nat × Account)) (r : Row) (e : RErr),
        processRow m r = .error e → errLine e = some r.line) := by
  intro h
  have h2 := h [] ⟨2, ["deposit".data, "abc".data, "1".data, "5.0".data]⟩
      .lexicalParse (by decide)
  exact absurd h2 (by decide)

/-- C5 (amended): the amount field of a dispute, resolve or chargeback
row is still parsed before dispatch: a malformed or negative literal
aborts the row with the amount's error, while any successfully parsed
amount (and an empty or absent field) has no effect — the row behaves
exactly as if the amount field were absent. -/
theorem op_row_amount_checked_then_ignored (m : List (Nat × Account))
    (line : Nat) (t c x amt : List Char) (tt : TransactionType)
    (client txid : Nat)
    (htt : parse_transaction_type t line = .ok tt)
    (hop : tt = .Dispute ∨ tt = .Resolve ∨ tt = .Chargeback)
    (hc : parseU16 c = .ok client)
    (hx : parseU64 x = .ok txid) :
    processRow m ⟨line, [t, c, x, amt]⟩ =
      (match parse_scaled_value amt line with
       | .error e => .error e
       | .ok _ => processRow m ⟨line, [t, c, x]⟩) := by
  rcases hop with hop | hop | hop <;>
    subst hop <;>
    simp only [processRow, List.getElem?_cons_zero, List.getElem?_cons_succ,
      List.getElem?_nil, htt, hc, hx]

theorem op_row_amount_checked_then_ignored_witness :
    processRow [] ⟨2, ["dispute".data, "1".data, "1".data, "3.5".data]⟩ =
      (match parse_scaled_value "3.5".data 2 with
       | .error e => .error e
       | .ok _ => processRow [] ⟨2, ["dispute".data, "1".data, "1".data]⟩) :=
  op_row_amount_checked_then_ignored [] 2 "dispute".data "1".data "1".data
    "3.5".data .Dispute 1 1 (by decide) (Or.inl rfl) (by decide) (by decide)

/-- C5 as stated is false: the amount field of a dispute row is parsed
before dispatch, so the negative literal `-5` aborts the run with
`NegativeAmount` — it both causes an error and changes the outcome
relative to the same row without an amount. -/
theorem op_row_amount_ignored_cex :
    ¬ (∀ (m : List (Nat × Account)) (line : Nat) (t c x amt : List Char)
         (tt : TransactionType),
        parse_transaction_type t line = .ok tt →
        (tt = .Dispute ∨ tt = .Resolve ∨ tt = .Chargeback) →
        processRow m ⟨line, [t, c, x, amt]⟩ = processRow m ⟨line, [t, c, x]⟩) := by
  intro h
  have h2 := h [] 2 "dispute".data "1".data "1".data "-5".data .Dispute
      (by decide) (Or.inl rfl)
  exact absurd h2 (by decide)

end KrakenLedger
